import Mathlib

attribute [local semireducible] Rat.add Rat.sub Rat.mul Rat.inv Rat.ofScientific

/-
  Verification of the NetWatch streaming-analytics core against its
  natural-language specification.

  Shallow embedding conventions:
  * Python floats (timestamps, confidences) are modelled as rationals.
  * Python dicts keyed by strings are modelled as insertion-ordered
    association lists, matching CPython's ordered-dict semantics.
  * Python object references are modelled, where sharing is observable,
    by a heap: a list of records addressed by index.
  * Fallible code is modelled with Except; code that catches exceptions
    is modelled by a total function over the Except result.
-/

namespace Netwatch

/-- Normalised 5-tuple flow key (aggregation/models.py, class FlowKey). -/
structure FlowKey where
  src_ip : String
  dst_ip : String
  src_port : Nat
  dst_port : Nat
  protocol : String
deriving DecidableEq, Repr

/-- Embedding of make_flow_key (aggregation/models.py lines 49-72):
the lower-port side is stored as src; on a port tie the branch on
src_ip <= dst_ip (lexicographic string order, as in Python) decides. -/
def make_flow_key (src_ip dst_ip : String) (src_port dst_port : Nat)
    (protocol : String) : FlowKey :=
  if src_port < dst_port then
    ⟨src_ip, dst_ip, src_port, dst_port, protocol⟩
  else if dst_port < src_port then
    ⟨dst_ip, src_ip, dst_port, src_port, protocol⟩
  else if src_ip ≤ dst_ip then
    ⟨src_ip, dst_ip, src_port, dst_port, protocol⟩
  else
    ⟨dst_ip, src_ip, dst_port, src_port, protocol⟩

/-- Packet metadata as produced by the capture layer (backend/models.py). -/
structure PacketMeta where
  timestamp : ℚ
  src_ip : String
  dst_ip : String
  src_port : Nat
  dst_port : Nat
  protocol : String
  flags : String
  payload_size : Nat
  ttl : Nat
  direction : String
deriving DecidableEq, Repr

/-- The reversal of a packet: src and dst endpoints swapped. -/
def PacketMeta.reverse (p : PacketMeta) : PacketMeta :=
  { p with src_ip := p.dst_ip, dst_ip := p.src_ip,
           src_port := p.dst_port, dst_port := p.src_port }

/-- The flow key computed for a packet, as FlowTracker.update does. -/
def packetFlowKey (p : PacketMeta) : FlowKey :=
  make_flow_key p.src_ip p.dst_ip p.src_port p.dst_port p.protocol

/-!  Bounded queues (backend/pipeline.py).  An asyncio.Queue is modelled as a
FIFO list (head = oldest) with a capacity and the METRICS.packets_dropped
counter.  asyncio treats maxsize 0 as unbounded, so full means a positive
capacity that the length has reached. -/

/-- Queue plus drop counter, modelling an asyncio.Queue together with the
METRICS.packets_dropped counter that safe_put increments. -/
structure QueueState (α : Type) where
  items : List α
  capacity : Nat
  dropped : Nat
deriving DecidableEq, Repr

/-- Embedding of asyncio.Queue.full(): maxsize positive and reached. -/
def qfull {α : Type} (q : QueueState α) : Bool :=
  decide (0 < q.capacity ∧ q.capacity ≤ q.items.length)

/-- The drop branch of safe_put (pipeline.py lines 83-93): discard the oldest
item and count it; if the queue was drained in between, QueueEmpty is caught
and nothing happens. -/
def dropOldest {α : Type} (q : QueueState α) : QueueState α :=
  match q.items with
  | [] => q
  | _ :: rest => { q with items := rest, dropped := q.dropped + 1 }

/-- Embedding of safe_put (pipeline.py lines 72-104).  The env parameter is
the action other tasks perform on the queue between the drop attempt and the
enqueue; the code's comments describe exactly this interleaving for the
residual put_nowait failure.  env = id gives the sequential semantics.
The function is total: safe_put never raises and never blocks. -/
def safe_put_env {α : Type} (q : QueueState α) (x : α)
    (env : QueueState α → QueueState α) : Bool × QueueState α :=
  let q1 := if qfull q then dropOldest q else q
  let q2 := env q1
  if qfull q2 then (false, { q2 with dropped := q2.dropped + 1 })
  else (true, { q2 with items := q2.items ++ [x] })

/-- Sequential safe_put: no interleaved producer or consumer. -/
def safe_put {α : Type} (q : QueueState α) (x : α) : Bool × QueueState α :=
  safe_put_env q x id

/-- A sequence of sequential safe_put calls. -/
def put_all {α : Type} (q : QueueState α) (l : List α) : QueueState α :=
  l.foldl (fun q x => (safe_put q x).2) q

/-- The empty queue of a given capacity with a zeroed drop counter. -/
def emptyQueue (α : Type) (c : Nat) : QueueState α := ⟨[], c, 0⟩

/-- The queue state safe_put sees at its put_nowait call: after the
conditional drop and any interleaved environment action. -/
def prePutState {α : Type} (q : QueueState α)
    (env : QueueState α → QueueState α) : QueueState α :=
  env (if qfull q then dropOldest q else q)

/-!  Flow tracker (aggregation/flow_tracker.py, aggregation/models.py).

Python FlowRecord objects are mutable and shared by reference: the tracker's
dict, the record returned by update and the lists returned by get_top_flows
all point at the same objects.  To make that sharing observable the state
carries a heap recs (a list of FlowRecord values addressed by index, one
entry per FlowRecord object ever constructed) and the dict flows maps each
FlowKey to a heap index, in insertion order as a CPython dict. -/

/-- Per-flow statistics (aggregation/models.py, class FlowRecord).
flags_seen is a Python set; only membership matters, so it is kept as a
deduplicated list. -/
structure FlowRecord where
  flow_key : FlowKey
  first_seen : ℚ
  last_seen : ℚ
  packet_count : Nat
  byte_count : Nat
  flags_seen : List String
  total_payload : Nat
  is_active : Bool
deriving DecidableEq, Repr

instance : Inhabited FlowRecord :=
  ⟨⟨⟨"", "", 0, 0, ""⟩, 0, 0, 0, 0, [], 0, true⟩⟩

/-- Tracker state (class FlowTracker).  new_flow_count is the counter behind
pop_new_flow_count. -/
structure FlowTracker where
  recs : List FlowRecord
  flows : List (FlowKey × Nat)
  max_flows : Nat
  ttl_seconds : ℚ
  new_flow_count : Nat
deriving DecidableEq, Repr

/-- A fresh tracker (FlowTracker.__init__). -/
def FlowTracker.init (maxFlows : Nat) (ttl : ℚ) : FlowTracker :=
  ⟨[], [], maxFlows, ttl, 0⟩

/-- Dict lookup on the insertion-ordered flows map. -/
def lookupFlow (fl : List (FlowKey × Nat)) (k : FlowKey) : Option Nat :=
  (fl.find? fun kv => decide (kv.1 = k)).map (·.2)

/-- Read a heap cell (dereference a FlowRecord object). -/
def FlowTracker.recAt (t : FlowTracker) (i : Nat) : FlowRecord :=
  t.recs.getD i default

/-- Write through a heap cell, modelling mutation of the object at index i. -/
def heapSet (recs : List FlowRecord) (i : Nat) (f : FlowRecord → FlowRecord) :
    List FlowRecord :=
  recs.set i (f (recs.getD i default))

/-- The statistics mutation at the end of FlowTracker.update (lines 84-90):
last_seen, packet_count, byte_count, running payload, flags set insert. -/
def recordStatsUpdate (p : PacketMeta) (r : FlowRecord) : FlowRecord :=
  { r with
    last_seen := p.timestamp
    packet_count := r.packet_count + 1
    byte_count := r.byte_count + p.payload_size
    total_payload := r.total_payload + p.payload_size
    flags_seen :=
      if p.flags = "" then r.flags_seen
      else if p.flags ∈ r.flags_seen then r.flags_seen
      else r.flags_seen ++ [p.flags] }

/-- Embedding of FlowTracker._evict_oldest (lines 151-159): drop the
n oldest map entries by last_seen (stable ascending sort, as Python's
sorted).  The evicted FlowRecord objects are popped from the dict only;
their is_active flag is not touched. -/
def FlowTracker.evict_oldest (t : FlowTracker) : FlowTracker :=
  let n := t.flows.length - t.max_flows
  if n = 0 then t
  else
    let sortedKV := List.insertionSort
      (fun a b : FlowKey × Nat => (t.recAt a.2).last_seen ≤ (t.recAt b.2).last_seen)
      t.flows
    let victims := (sortedKV.take n).map (·.1)
    { t with flows := t.flows.filter fun kv => decide (kv.1 ∉ victims) }

/-- The new-flow insertion of FlowTracker.update lines 76-78: construct the
fresh FlowRecord (the dataclass stamps last_seen with time.time() = now on
construction; the stats mutation overwrites it later), append it to the
heap, bind it in the dict, and bump the new-flow counter. -/
def FlowTracker.updateInsert (t : FlowTracker) (p : PacketMeta) (now : ℚ) :
    FlowTracker :=
  { t with
    recs := t.recs ++ [({ flow_key := packetFlowKey p,
                          first_seen := p.timestamp,
                          last_seen := now, packet_count := 0, byte_count := 0,
                          flags_seen := [], total_payload := 0,
                          is_active := true } : FlowRecord)]
    flows := t.flows ++ [(packetFlowKey p, t.recs.length)]
    new_flow_count := t.new_flow_count + 1 }

/-- Embedding of FlowTracker.update (lines 57-92).  now is the wall clock at
the call.  Returns the updated tracker and the heap index of the record the
Python method returns. -/
def FlowTracker.update (t : FlowTracker) (p : PacketMeta) (now : ℚ) :
    FlowTracker × Nat :=
  let found :=
    match lookupFlow t.flows (packetFlowKey p) with
    | some i =>
        ({ t with recs := heapSet t.recs i fun r => { r with is_active := true } }, i)
    | none =>
        let t1 := t.updateInsert p now
        (if t1.max_flows < t1.flows.length then t1.evict_oldest else t1,
         t.recs.length)
  ({ found.1 with recs := heapSet found.1.recs found.2 (recordStatsUpdate p) },
   found.2)

/-- Embedding of FlowTracker.expire_flows (lines 94-123): unlink every map
entry whose record's last_seen is older than now - ttl, mark each removed
record inactive, and return the removed heap indices (the records Python
returns). -/
def FlowTracker.expire_flows (t : FlowTracker) (now : ℚ) (ttl : ℚ) :
    FlowTracker × List Nat :=
  let cutoff := now - ttl
  let expired := (t.flows.filter fun kv => decide ((t.recAt kv.2).last_seen < cutoff)).map (·.2)
  let remaining := t.flows.filter fun kv => !decide ((t.recAt kv.2).last_seen < cutoff)
  ({ t with
     flows := remaining
     recs := expired.foldl (fun rs i => heapSet rs i fun r => { r with is_active := false }) t.recs },
   expired)

/-- Embedding of FlowTracker.get_top_flows (lines 125-135): a new list of the
records sorted by packet_count descending (stable, as Python's
sorted(reverse=True)), truncated to n.  Only the list is new: the elements
are heap indices of the very same FlowRecord objects. -/
def FlowTracker.get_top_flows (t : FlowTracker) (n : Nat) : List Nat :=
  (List.insertionSort
    (fun i j : Nat => (t.recAt j).packet_count ≤ (t.recAt i).packet_count)
    (t.flows.map (·.2))).take n

/-- The heap indices reachable through the flows map. -/
def mappedIds (t : FlowTracker) : List Nat := t.flows.map (·.2)

/-- The specified tracker invariant: a record is in the map iff its active
flag is set — every mapped heap cell is a live active record, and every heap
cell outside the map is inactive. -/
def FlowTracker.invariant (t : FlowTracker) : Prop :=
  (∀ i ∈ mappedIds t, i < t.recs.length ∧ (t.recAt i).is_active = true)
  ∧ (∀ i < t.recs.length, i ∉ mappedIds t → (t.recAt i).is_active = false)

instance (t : FlowTracker) : Decidable t.invariant := by
  unfold FlowTracker.invariant; infer_instance

/-- Model well-formedness: the dict maps distinct keys to distinct live heap
cells (Python dict entries reference distinct FlowRecord objects). -/
def FlowTracker.wf (t : FlowTracker) : Prop :=
  (mappedIds t).Nodup ∧ ∀ i ∈ mappedIds t, i < t.recs.length

instance (t : FlowTracker) : Decidable t.wf := by
  unfold FlowTracker.wf; infer_instance

/-!  Time-window aggregation (aggregation/time_window.py).  Each call that
reads a clock in Python takes the corresponding instant as an argument:
nowMono for time.monotonic(), nowWall for time.time(). -/

/-- Insert into a Python set modelled as a deduplicated list. -/
def insertUnique {α : Type} [DecidableEq α] (l : List α) (x : α) : List α :=
  if x ∈ l then l else l ++ [x]

/-- Increment a counter in a protocol→count dict (insertion-ordered). -/
def bumpCount (m : List (String × Nat)) (k : String) : List (String × Nat) :=
  match m.find? (fun kv => decide (kv.1 = k)) with
  | some _ => m.map fun kv => if kv.1 = k then (kv.1, kv.2 + 1) else kv
  | none => m ++ [(k, 1)]

/-- Completed window snapshot (aggregation/models.py, class AggregatedWindow).
top_flows holds FlowRecord values as the detection rules read them. -/
structure AggregatedWindow where
  window_start : ℚ
  window_end : ℚ
  window_size_seconds : Nat
  total_packets : Nat
  total_bytes : Nat
  unique_src_ips : List String
  unique_dst_ips : List String
  unique_dst_ports : List Nat
  protocol_counts : List (String × Nat)
  top_flows : List FlowRecord
  flows_started : Nat
  flows_ended : Nat
deriving DecidableEq, Repr

/-- Accumulator state of one TimeWindowBucket. -/
structure TimeWindowBucket where
  size : Nat
  window_start_mono : ℚ
  window_start_wall : ℚ
  total_packets : Nat
  total_bytes : Nat
  unique_src_ips : List String
  unique_dst_ips : List String
  unique_dst_ports : List Nat
  protocol_counts : List (String × Nat)
deriving DecidableEq, Repr

/-- Embedding of TimeWindowBucket._reset (lines 117-126). -/
def TimeWindowBucket.reset (b : TimeWindowBucket) (nowMono nowWall : ℚ) :
    TimeWindowBucket :=
  { size := b.size, window_start_mono := nowMono, window_start_wall := nowWall,
    total_packets := 0, total_bytes := 0, unique_src_ips := [],
    unique_dst_ips := [], unique_dst_ports := [], protocol_counts := [] }

/-- Embedding of TimeWindowBucket._accumulate (lines 128-138); a zero
dst_port is falsy in Python and is not added to the port set. -/
def TimeWindowBucket.accumulate (b : TimeWindowBucket) (p : PacketMeta) :
    TimeWindowBucket :=
  { b with
    total_packets := b.total_packets + 1
    total_bytes := b.total_bytes + p.payload_size
    unique_src_ips := insertUnique b.unique_src_ips p.src_ip
    unique_dst_ips := insertUnique b.unique_dst_ips p.dst_ip
    unique_dst_ports :=
      if p.dst_port = 0 then b.unique_dst_ports
      else insertUnique b.unique_dst_ports p.dst_port
    protocol_counts := bumpCount b.protocol_counts p.protocol }

/-- Embedding of TimeWindowBucket._seal (lines 140-168): snapshot the running
totals into an AggregatedWindow, capping top_flows at 10. -/
def TimeWindowBucket.seal (b : TimeWindowBucket) (nowWall : ℚ)
    (topFlows : List FlowRecord) (flowsStarted flowsEnded : Nat) :
    AggregatedWindow :=
  { window_start := b.window_start_wall, window_end := nowWall,
    window_size_seconds := b.size, total_packets := b.total_packets,
    total_bytes := b.total_bytes, unique_src_ips := b.unique_src_ips,
    unique_dst_ips := b.unique_dst_ips, unique_dst_ports := b.unique_dst_ports,
    protocol_counts := b.protocol_counts, top_flows := topFlows.take 10,
    flows_started := flowsStarted, flows_ended := flowsEnded }

/-- Embedding of TimeWindowBucket.add (lines 52-89): seal and reset when the
window duration has elapsed, then accumulate the triggering packet into the
fresh window; otherwise just accumulate. -/
def TimeWindowBucket.add (b : TimeWindowBucket) (nowMono nowWall : ℚ)
    (p : PacketMeta) (topFlows : List FlowRecord)
    (flowsStarted flowsEnded : Nat) :
    Option AggregatedWindow × TimeWindowBucket :=
  if (b.size : ℚ) ≤ nowMono - b.window_start_mono then
    (some (b.seal nowWall topFlows flowsStarted flowsEnded),
     (b.reset nowMono nowWall).accumulate p)
  else
    (none, b.accumulate p)

/-- Embedding of TimeWindowBucket.flush (lines 91-111): force-close the
window, emitting nothing when it holds no packets. -/
def TimeWindowBucket.flush (b : TimeWindowBucket) (nowMono nowWall : ℚ)
    (topFlows : List FlowRecord) (flowsStarted flowsEnded : Nat) :
    Option AggregatedWindow × TimeWindowBucket :=
  if b.total_packets = 0 then (none, b)
  else
    (some (b.seal nowWall topFlows flowsStarted flowsEnded),
     b.reset nowMono nowWall)

/-!  Detection engine (engine/engine.py, engine/models.py) and the port-scan
rule (engine/rules/port_scan.py). -/

/-- Alert severity (engine/models.py, class Severity). -/
inductive Severity
  | LOW
  | MEDIUM
  | HIGH
  | CRITICAL
deriving DecidableEq, Repr

/-- A JSON-serialisable evidence value; Severity may appear because
port_scan's evidence override path in _make_alert checks isinstance. -/
inductive EvVal
  | str (s : String)
  | int (n : Int)
  | natList (l : List Nat)
  | strList (l : List String)
  | sev (s : Severity)
deriving DecidableEq, Repr

/-- The evidence dict: insertion-ordered string-keyed mapping. -/
def Evidence : Type := List (String × EvVal)

instance : DecidableEq Evidence := by unfold Evidence; infer_instance

instance : Repr Evidence := by unfold Evidence; infer_instance

/-- dict.get on evidence. -/
def evGet (ev : Evidence) (k : String) : Option EvVal :=
  (ev.find? fun kv => decide (kv.1 = k)).map (·.2)

/-- Python truthiness of an evidence value (None handled at use sites). -/
def EvVal.truthy : EvVal → Bool
  | .str s => !decide (s = "")
  | .int n => !decide (n = 0)
  | .natList l => !decide (l = [])
  | .strList l => !decide (l = [])
  | .sev _ => true

/-- Python str() of an evidence value as far as the engine needs it. -/
def EvVal.toStr : EvVal → String
  | .str s => s
  | .int n => toString n
  | .natList _ => "list"
  | .strList _ => "list"
  | .sev .LOW => "Severity.LOW"
  | .sev .MEDIUM => "Severity.MEDIUM"
  | .sev .HIGH => "Severity.HIGH"
  | .sev .CRITICAL => "Severity.CRITICAL"

/-- Return value of a rule's analyze (engine/models.py, class RuleResult). -/
structure RuleResult where
  triggered : Bool
  confidence : ℚ
  evidence : Evidence
  description : String
deriving DecidableEq, Repr

/-- A detection rule: declarative name/severity plus its analyze body.
analyze returns Except so that a body that raises is representable;
the engine wrapper catches the error case. -/
structure Rule where
  name : String
  severity : Severity
  analyze : AggregatedWindow → Except String RuleResult

/-- Threat alert (engine/models.py, class Alert). -/
structure Alert where
  alert_id : String
  timestamp : ℚ
  rule_name : String
  severity : Severity
  confidence : ℚ
  src_ip : String
  dst_ip : String
  evidence : Evidence
  description : String
  window_start : ℚ
  window_end : ℚ
  window_size_seconds : Nat
deriving DecidableEq, Repr

/-- Embedding of DetectionEngine._safe_analyze (engine.py lines 104-117):
a raising rule is replaced by a non-triggered zero-confidence result. -/
def safe_analyze (r : Rule) (w : AggregatedWindow) : RuleResult :=
  match r.analyze w with
  | .ok res => res
  | .error exc =>
      { triggered := false, confidence := 0, evidence := [],
        description := "rule error: " ++ exc }

/-- The src_ip selection of _make_alert (engine.py lines 120-123):
evidence src_ip if truthy, else the first of a truthy src_ips list,
else the string "unknown". -/
def alertSrcIp (ev : Evidence) : String :=
  match evGet ev "src_ip" with
  | some v => if v.truthy then v.toStr else alertSrcIpFallback ev
  | none => alertSrcIpFallback ev
where
  alertSrcIpFallback (ev : Evidence) : String :=
    match evGet ev "src_ips" with
    | some (.strList (a :: _)) => a
    | _ => "unknown"

/-- Embedding of DetectionEngine._make_alert (engine.py lines 119-142).
The severity is taken from evidence only when the stored value is an actual
Severity; otherwise the rule's default applies. -/
def make_alert (r : Rule) (res : RuleResult) (w : AggregatedWindow)
    (alertId : String) (now : ℚ) : Alert :=
  { alert_id := alertId
    timestamp := now
    rule_name := r.name
    severity :=
      match evGet res.evidence "severity" with
      | some (.sev s) => s
      | _ => r.severity
    confidence := res.confidence
    src_ip := alertSrcIp res.evidence
    dst_ip :=
      match evGet res.evidence "dst_ip" with
      | some v => v.toStr
      | none => "multiple"
    evidence := res.evidence
    description := res.description
    window_start := w.window_start
    window_end := w.window_end
    window_size_seconds := w.window_size_seconds }

/-- Engine counters and cooldown map (engine.py __init__). -/
structure EngineState where
  cooldowns : List (String × ℚ)
  windows_analyzed : Nat
  alerts_fired : Nat
  alerts_suppressed : Nat
  alerts_cooldown : Nat
  alerts_whitelisted : Nat
deriving DecidableEq, Repr

/-- Engine configuration. -/
structure DetectionEngine where
  confidence_threshold : ℚ
  cooldown_sec : ℚ
  whitelist : List String
  rules : List Rule

/-- dict.get with a default on a string-keyed map. -/
def lookupD (m : List (String × ℚ)) (k : String) (d : ℚ) : ℚ :=
  match m.find? (fun kv => decide (kv.1 = k)) with
  | some kv => kv.2
  | none => d

/-- dict assignment on a string-keyed map (overwrite in place or append). -/
def setAssoc (m : List (String × ℚ)) (k : String) (v : ℚ) :
    List (String × ℚ) :=
  if (m.find? fun kv => decide (kv.1 = k)).isSome then
    m.map fun kv => if kv.1 = k then (kv.1, v) else kv
  else m ++ [(k, v)]

/-- One iteration of the rule loop in DetectionEngine.analyze (engine.py
lines 60-100): wrapped analyze, triggered gate, confidence gate, alert
construction, whitelist gate, cooldown gate, emission.  The Nat component
counts uuid4 draws (one per constructed alert). -/
def engineStep (e : DetectionEngine) (w : AggregatedWindow) (now : ℚ)
    (ids : Nat → String) (acc : List Alert × EngineState × Nat) (r : Rule) :
    List Alert × EngineState × Nat :=
  let (alerts, st, idx) := acc
  let res := safe_analyze r w
  if res.triggered = false then acc
  else if res.confidence < e.confidence_threshold then
    (alerts, { st with alerts_suppressed := st.alerts_suppressed + 1 }, idx)
  else
    let alert := make_alert r res w (ids idx) now
    if alert.src_ip ∈ e.whitelist then
      (alerts, { st with alerts_whitelisted := st.alerts_whitelisted + 1 },
       idx + 1)
    else
      let ckey := r.name ++ ":" ++ alert.src_ip
      let lastFired := lookupD st.cooldowns ckey 0
      if now - lastFired < e.cooldown_sec then
        (alerts, { st with alerts_cooldown := st.alerts_cooldown + 1 }, idx + 1)
      else
        (alerts ++ [alert],
         { st with cooldowns := setAssoc st.cooldowns ckey now,
                   alerts_fired := st.alerts_fired + 1 },
         idx + 1)

/-- Embedding of DetectionEngine.analyze (engine.py lines 56-102).  now and
ids supply time.time() and uuid4.  Total by construction: rule exceptions
are absorbed by safe_analyze and never escape. -/
def DetectionEngine.analyze (e : DetectionEngine) (st : EngineState)
    (w : AggregatedWindow) (now : ℚ) (ids : Nat → String) :
    List Alert × EngineState :=
  let st0 := { st with windows_analyzed := st.windows_analyzed + 1 }
  let out := e.rules.foldl (engineStep e w now ids) ([], st0, 0)
  (out.1, out.2.1)

/-- Per-horizon port threshold (port_scan.py lines 116-121). -/
def portScanThreshold (windowSize : Nat) : Nat :=
  if windowSize ≤ 1 then 15 else if windowSize ≤ 10 then 30 else 50

/-- Severity bands of PortScanRule._severity_for (port_scan.py lines
123-131). -/
def severity_for (confidence : ℚ) : Severity :=
  if 9/10 ≤ confidence then .CRITICAL
  else if 7/10 ≤ confidence then .HIGH
  else if 2/5 ≤ confidence then .MEDIUM
  else .LOW

/-- The src_ip → distinct dst_ports map built from top_flows (port_scan.py
lines 61-66), keyed in first-seen order as a Python dict. -/
def portsPerSrc (flows : List FlowRecord) : List (String × List Nat) :=
  flows.foldl
    (fun m f =>
      let src := f.flow_key.src_ip
      let port := f.flow_key.dst_port
      if (m.find? fun kv => decide (kv.1 = src)).isSome then
        m.map fun kv => if kv.1 = src then (kv.1, insertUnique kv.2 port) else kv
      else m ++ [(src, [port])])
    []

/-- The worst-offender scan of port_scan.py lines 72-79: first source with
the strictly largest distinct-port count. -/
def worstOffender (m : List (String × List Nat)) : Option String × Nat :=
  m.foldl
    (fun acc kv => if acc.2 < kv.2.length then (some kv.1, kv.2.length) else acc)
    (none, 0)

/-- Embedding of PortScanRule._analyze (port_scan.py lines 58-110).  The
source computes severity = self._severity_for(confidence) after the
threshold test but never stores it in the evidence dict or the result, so
the local is dead; the evidence built here carries exactly the five keys the
source writes. -/
def portScanAnalyze (w : AggregatedWindow) : RuleResult :=
  let threshold := portScanThreshold w.window_size_seconds
  let m := portsPerSrc w.top_flows
  let worst := worstOffender m
  match worst.1 with
  | none =>
      { triggered := false, confidence := 0, evidence := [],
        description := "no port scan detected" }
  | some worstSrc =>
      if worst.2 < threshold then
        { triggered := false, confidence := 0, evidence := [],
          description := "no port scan detected" }
      else
        let confidence := min 1 ((worst.2 : ℚ) / ((threshold : ℚ) * 3))
        let sampled :=
          (List.insertionSort (fun a b : Nat => a ≤ b)
            ((m.find? fun kv => decide (kv.1 = worstSrc)).elim [] (·.2))).take 10
        { triggered := true
          confidence := confidence
          evidence :=
            [("src_ip", .str worstSrc),
             ("unique_ports_contacted", .int worst.2),
             ("sampled_ports", .natList sampled),
             ("window_size_seconds", .int w.window_size_seconds),
             ("threshold", .int threshold)]
          description := "port scan detected" }

/-- The port-scan rule as loaded by the engine: default severity HIGH, and
an analyze body that never raises (PortScanRule.analyze wraps _analyze). -/
def portScanRule : Rule :=
  { name := "port_scan", severity := .HIGH,
    analyze := fun w => .ok (portScanAnalyze w) }

/-!  LLM explanation cache (llm/cache.py) and gatekeeper (llm/gatekeeper.py).

The cache key is SHA256 of the JSON of the four stable fields, truncated to
16 hex chars.  The hash is deterministic in those fields, so it is modelled
as the key tuple itself (collisions of truncated SHA256 are assumed away, as
the source does). -/

/-- LLM explanation payload (llm/models.py); the cache and gatekeeper treat
it as opaque. -/
structure LLMExplanation where
  summary : String
  severity_reasoning : String
  recommended_action : String
  ioc_tags : List String
  attack_phase : String
  llm_confidence : String
  fallback_used : Bool
deriving DecidableEq, Repr

/-- The alert dict fields the cache and gatekeeper read. -/
structure AlertDict where
  rule_name : String
  src_ip : String
  severity : String
  confidence : ℚ
deriving DecidableEq, Repr

/-- Python's round to integer: nearest, ties to even. -/
def roundHalfEven (x : ℚ) : Int :=
  if x - ⌊x⌋ < 1/2 then ⌊x⌋
  else if 1/2 < x - ⌊x⌋ then ⌊x⌋ + 1
  else if Even ⌊x⌋ then ⌊x⌋ else ⌊x⌋ + 1

/-- The confidence bucket of ExplanationCache._key: round(confidence, 1),
represented by its numerator over 10. -/
def confBucket (confidence : ℚ) : Int := roundHalfEven (10 * confidence)

/-- Embedding of ExplanationCache._key (cache.py lines 37-49): the stable
key data (rule, src_ip, severity, confidence bucket). -/
def cacheKeyData (a : AlertDict) : String × String × String × Int :=
  (a.rule_name, a.src_ip, a.severity, confBucket a.confidence)

/-- LRU cache state (cache.py): entries in recency order, least recently
used first, as the OrderedDict the source uses. -/
structure ExplanationCache where
  entries : List ((String × String × String × Int) × LLMExplanation)
  maxsize : Nat
  hits : Nat
  misses : Nat
deriving DecidableEq, Repr

/-- An empty cache of the given capacity (ExplanationCache.__init__). -/
def emptyCache (maxsize : Nat) : ExplanationCache := ⟨[], maxsize, 0, 0⟩

/-- Embedding of ExplanationCache.get (cache.py lines 51-60): on hit promote
the entry to most-recent and count a hit, else count a miss. -/
def ExplanationCache.get (c : ExplanationCache) (a : AlertDict) :
    Option LLMExplanation × ExplanationCache :=
  let k := cacheKeyData a
  match c.entries.find? (fun kv => decide (kv.1 = k)) with
  | some kv =>
      (some kv.2,
       { c with
         entries := (c.entries.filter fun e => !decide (e.1 = k)) ++ [kv]
         hits := c.hits + 1 })
  | none => (none, { c with misses := c.misses + 1 })

/-- Embedding of ExplanationCache.put (cache.py lines 62-69): insert or
overwrite, promote to most-recent, evict the LRU entry when over capacity. -/
def ExplanationCache.put (c : ExplanationCache) (a : AlertDict)
    (e : LLMExplanation) : ExplanationCache :=
  let k := cacheKeyData a
  let entries1 := (c.entries.filter fun kv => !decide (kv.1 = k)) ++ [(k, e)]
  if c.maxsize < entries1.length then { c with entries := entries1.drop 1 }
  else { c with entries := entries1 }

/-- ASCII uppercase of one character. -/
def asciiUpperChar (c : Char) : Char :=
  if 'a' ≤ c ∧ c ≤ 'z' then Char.ofNat (c.toNat - 32) else c

/-- Python str.upper() as the gatekeeper applies it to severity labels
(ASCII enum names, for which upper() is plain ASCII uppercasing). -/
def pyUpper (s : String) : String := ⟨s.data.map asciiUpperChar⟩

/-- Gatekeeper configuration (gatekeeper.py __init__). -/
structure LLMGatekeeper where
  min_confidence : ℚ
  required_severities : List String
  max_calls_per_minute : Nat
  cooldown_seconds : ℚ

/-- The default gatekeeper configuration. -/
def defaultGatekeeper : LLMGatekeeper :=
  { min_confidence := 1/2,
    required_severities := ["MEDIUM", "HIGH", "CRITICAL"],
    max_calls_per_minute := 10, cooldown_seconds := 30 }

/-- Mutable gatekeeper state: recent call timestamps and per
(src_ip, rule_name) cooldown stamps. -/
structure GKState where
  call_times : List ℚ
  cooldowns : List (String × ℚ)
deriving DecidableEq, Repr

/-- The cooldown key of gatekeeper check 5. -/
def gkCooldownKey (a : AlertDict) : String := a.src_ip ++ ":" ++ a.rule_name

/-- Embedding of LLMGatekeeper.should_call (gatekeeper.py lines 49-94).
Checks run in source order: cache, severity, confidence, rate limit (after
pruning the sliding 60 s window in place), cooldown; approval records the
call time and cooldown stamp.  Returns (admit, reason, state, cache). -/
def should_call (gk : LLMGatekeeper) (st : GKState) (cache : ExplanationCache)
    (a : AlertDict) (now : ℚ) : Bool × String × GKState × ExplanationCache :=
  let cacheOut := cache.get a
  if cacheOut.1.isSome then (false, "CACHE_HIT", st, cacheOut.2)
  else if pyUpper a.severity ∉ gk.required_severities then
    (false, "LOW_SEVERITY", st, cacheOut.2)
  else if a.confidence < gk.min_confidence then
    (false, "LOW_CONFIDENCE", st, cacheOut.2)
  else
    let kept := st.call_times.filter fun t => decide (now - t < 60)
    if gk.max_calls_per_minute ≤ kept.length then
      (false, "RATE_LIMITED", { st with call_times := kept }, cacheOut.2)
    else
      let lastCalled := lookupD st.cooldowns (gkCooldownKey a) 0
      if now - lastCalled < gk.cooldown_seconds then
        (false, "COOLDOWN", { st with call_times := kept }, cacheOut.2)
      else
        (true, "APPROVED",
         { call_times := kept ++ [now],
           cooldowns := setAssoc st.cooldowns (gkCooldownKey a) now },
         cacheOut.2)

/-- Specification-side reading of the gatekeeper: the reason of the first
failing check in the order cache-hit, severity, confidence, rate limit,
cooldown, stated through the five independent check predicates. -/
def gkFirstFailing (gk : LLMGatekeeper) (st : GKState)
    (cache : ExplanationCache) (a : AlertDict) (now : ℚ) : String :=
  if ((cache.get a).1).isSome then "CACHE_HIT"
  else if pyUpper a.severity ∉ gk.required_severities then "LOW_SEVERITY"
  else if a.confidence < gk.min_confidence then "LOW_CONFIDENCE"
  else if gk.max_calls_per_minute ≤
      (st.call_times.filter fun t => decide (now - t < 60)).length then
    "RATE_LIMITED"
  else if now - lookupD st.cooldowns (gkCooldownKey a) 0 < gk.cooldown_seconds then
    "COOLDOWN"
  else "APPROVED"

/-!  Concrete instances for the boundary scenarios. -/

/-- One scanning flow of end-to-end scenario 1: src 10.0.0.1, a distinct
destination port, one TCP SYN packet. -/
def scanFlow (dstPort : Nat) : FlowRecord :=
  ⟨⟨"10.0.0.1", "192.168.0.1", 54321, dstPort, "TCP"⟩, 0, 0, 1, 64, ["SYN"], 64, true⟩

/-- A sealed 1-second window whose top_flows show 10.0.0.1 contacting the 20
distinct destination ports 1..20, all TCP SYN. -/
def scanWindow : AggregatedWindow :=
  { window_start := 0, window_end := 1, window_size_seconds := 1,
    total_packets := 20, total_bytes := 1280,
    unique_src_ips := ["10.0.0.1"], unique_dst_ips := ["192.168.0.1"],
    unique_dst_ports := (List.range 20).map (· + 1),
    protocol_counts := [("TCP", 20)],
    top_flows := (List.range 20).map fun i => scanFlow (i + 1),
    flows_started := 20, flows_ended := 0 }

/-- First packet of the eviction scenario: flow A at time 1. -/
def pktA : PacketMeta :=
  ⟨1, "10.0.0.1", "10.0.0.2", 1, 2, "TCP", "SYN", 100, 64, "outbound"⟩

/-- Second packet: a different flow B at time 2, pushing a
capacity-1 tracker over its cap. -/
def pktB : PacketMeta :=
  ⟨2, "10.0.0.1", "10.0.0.2", 3, 4, "TCP", "SYN", 100, 64, "outbound"⟩

/-- A later packet on flow A (same key as pktA). -/
def pktA2 : PacketMeta :=
  ⟨2, "10.0.0.1", "10.0.0.2", 1, 2, "TCP", "ACK", 50, 64, "outbound"⟩

/-- Capacity-1 tracker after one update: flow A mapped at heap cell 0. -/
def trkA : FlowTracker := ((FlowTracker.init 1 60).update pktA 1).1

/-- The same tracker after flow B arrives: the cap is exceeded and the
oldest flow A is evicted. -/
def trkB : FlowTracker := (trkA.update pktB 2).1

/-- trkA after a second packet on flow A (no eviction, shared cell 0). -/
def trkA2 : FlowTracker := (trkA.update pktA2 2).1

/-- A stand-in explanation payload. -/
def expl0 : LLMExplanation :=
  ⟨"summary", "reasoning", "action", [], "unknown", "LOW", true⟩

/-- The scenario-6 alert dict at confidence 0.44. -/
def alert044 : AlertDict := ⟨"port_scan", "10.0.0.1", "HIGH", 0.44⟩

/-- The same alert with confidence bumped by 0.02 to 0.46. -/
def alert046 : AlertDict := ⟨"port_scan", "10.0.0.1", "HIGH", 0.46⟩

/-- The same alert with confidence lowered by 0.03 to 0.41. -/
def alert041 : AlertDict := ⟨"port_scan", "10.0.0.1", "HIGH", 0.41⟩

/-- A capacity-100 tracker holding flow A: room to grow without eviction. -/
def trkW : FlowTracker := ((FlowTracker.init 100 60).update pktA 1).1

/-- Gatekeeper state whose sliding window holds exactly ten approved-call
timestamps 0,...,9. -/
def gkStFull : GKState := ⟨[0, 1, 2, 3, 4, 5, 6, 7, 8, 9], []⟩

/-- The scenario-6 alert at confidence 0.82. -/
def alert082 : AlertDict := ⟨"port_scan", "10.0.0.1", "HIGH", 0.82⟩

/-!  Claim C2 — flow-key normalisation. -/

/-- Branch lemma: strictly smaller source port keeps the orientation. -/
theorem make_flow_key_of_lt {s d pr : String} {sp dp : Nat} (h : sp < dp) :
    make_flow_key s d sp dp pr = ⟨s, d, sp, dp, pr⟩ := by
  simp [make_flow_key, h]

/-- Branch lemma: strictly smaller destination port flips the orientation. -/
theorem make_flow_key_of_gt {s d pr : String} {sp dp : Nat} (h : dp < sp) :
    make_flow_key s d sp dp pr = ⟨d, s, dp, sp, pr⟩ := by
  simp [make_flow_key, h, h.asymm]

/-- Branch lemma: equal ports, source IP not larger. -/
theorem make_flow_key_of_le (s d pr : String) (p : Nat) (hip : s ≤ d) :
    make_flow_key s d p p pr = ⟨s, d, p, p, pr⟩ := by
  simp [make_flow_key, hip]

/-- Branch lemma: equal ports, source IP larger. -/
theorem make_flow_key_of_nle (s d pr : String) (p : Nat) (hip : ¬ s ≤ d) :
    make_flow_key s d p p pr = ⟨d, s, p, p, pr⟩ := by
  simp [make_flow_key, hip]

/-- Claim C2: make_flow_key gives the same FlowKey for a packet and its
reversal; the lower-port side becomes the key's source, and on a port tie
the lexicographically smaller IP becomes the source. -/
theorem flow_key_normalisation (p : PacketMeta) :
    packetFlowKey p.reverse = packetFlowKey p
    ∧ (packetFlowKey p).src_port = min p.src_port p.dst_port
    ∧ (packetFlowKey p).dst_port = max p.src_port p.dst_port
    ∧ (p.src_port < p.dst_port →
        (packetFlowKey p).src_ip = p.src_ip ∧ (packetFlowKey p).dst_ip = p.dst_ip)
    ∧ (p.dst_port < p.src_port →
        (packetFlowKey p).src_ip = p.dst_ip ∧ (packetFlowKey p).dst_ip = p.src_ip)
    ∧ (p.src_port = p.dst_port →
        (packetFlowKey p).src_ip = min p.src_ip p.dst_ip) := by
  unfold packetFlowKey PacketMeta.reverse
  rcases lt_trichotomy p.src_port p.dst_port with h | h | h
  · rw [make_flow_key_of_lt h, make_flow_key_of_gt h]
    exact ⟨rfl, (min_eq_left h.le).symm, (max_eq_right h.le).symm,
      fun _ => ⟨rfl, rfl⟩, fun h2 => absurd h2 h.asymm, fun h2 => absurd h2 h.ne⟩
  · rcases le_or_lt p.src_ip p.dst_ip with hip | hip
    · rcases eq_or_lt_of_le hip with he | hlt
      · rw [h, he, make_flow_key_of_le _ _ _ _ le_rfl]
        exact ⟨rfl, (min_self _).symm, (max_self _).symm,
          fun h2 => absurd h2 (lt_irrefl _),
          fun h2 => absurd h2 (lt_irrefl _), fun _ => (min_self _).symm⟩
      · rw [h, make_flow_key_of_le _ _ _ _ hip, make_flow_key_of_nle _ _ _ _ (not_le.mpr hlt)]
        exact ⟨rfl, (min_self _).symm, (max_self _).symm,
          fun h2 => absurd h2 (lt_irrefl _), fun h2 => absurd h2 (lt_irrefl _),
          fun _ => (min_eq_left hip).symm⟩
    · rw [h, make_flow_key_of_nle _ _ _ _ (not_le.mpr hip), make_flow_key_of_le _ _ _ _ hip.le]
      exact ⟨rfl, (min_self _).symm, (max_self _).symm,
        fun h2 => absurd h2 (lt_irrefl _), fun h2 => absurd h2 (lt_irrefl _),
        fun _ => (min_eq_right hip.le).symm⟩
  · rw [make_flow_key_of_gt h, make_flow_key_of_lt h]
    exact ⟨rfl, (min_eq_right h.le).symm, (max_eq_left h.le).symm,
      fun h2 => absurd h2 h.asymm, fun _ => ⟨rfl, rfl⟩, fun h2 => absurd h2.symm h.ne⟩

/-- Witness for C2: the normalisation theorem applied to the concrete
packet 192.168.1.10:12345 → 8.8.8.8:80/TCP. -/
theorem flow_key_normalisation_witness :
    packetFlowKey (PacketMeta.reverse ⟨0, "192.168.1.10", "8.8.8.8", 12345, 80, "TCP", "SYN", 0, 64, "outbound"⟩)
      = packetFlowKey ⟨0, "192.168.1.10", "8.8.8.8", 12345, 80, "TCP", "SYN", 0, 64, "outbound"⟩
    ∧ (packetFlowKey ⟨0, "192.168.1.10", "8.8.8.8", 12345, 80, "TCP", "SYN", 0, 64, "outbound"⟩).src_port = min 12345 80
    ∧ (packetFlowKey ⟨0, "192.168.1.10", "8.8.8.8", 12345, 80, "TCP", "SYN", 0, 64, "outbound"⟩).src_ip = "8.8.8.8" := by
  obtain ⟨h1, h2, _, _, h5, _⟩ :=
    flow_key_normalisation ⟨0, "192.168.1.10", "8.8.8.8", 12345, 80, "TCP", "SYN", 0, 64, "outbound"⟩
  exact ⟨h1, h2, (h5 (by decide)).1⟩

/-!  Claims C4 and C10 — safe_put ring-buffer semantics. -/

/-- safe_put on a queue that is not full just appends. -/
theorem safe_put_of_not_full {α : Type} (q : QueueState α) (x : α)
    (h : ¬ (0 < q.capacity ∧ q.capacity ≤ q.items.length)) :
    safe_put q x = (true, { q with items := q.items ++ [x] }) := by
  simp [safe_put, safe_put_env, prePutState, qfull, h]

/-- safe_put on a full nonempty queue drops the head, counts it and
appends. -/
theorem safe_put_of_full {α : Type} (a : α) (t : List α) (cap dr : Nat)
    (x : α) (hfull : 0 < cap ∧ cap ≤ (a :: t).length)
    (hafter : ¬ cap ≤ t.length) :
    safe_put ⟨a :: t, cap, dr⟩ x = (true, ⟨t ++ [x], cap, dr + 1⟩) := by
  have h1 : qfull (⟨a :: t, cap, dr⟩ : QueueState α) = true := by
    simp only [qfull, decide_eq_true_eq]
    exact ⟨hfull.1, by simpa using hfull.2⟩
  have h2 : qfull (⟨t, cap, dr + 1⟩ : QueueState α) = false := by
    simp [qfull, hafter]
  simp [safe_put, safe_put_env, h1, h2, dropOldest]

/-- Ring-buffer invariant of repeated sequential safe_put on an initially
empty queue: the queue holds the most recent min(N, C) items and the
counter equals the number of discarded oldest items. -/
theorem put_all_ring {α : Type} (C : Nat) (hC : 0 < C) (l : List α) :
    put_all (emptyQueue α C) l =
      ⟨l.drop (l.length - C), C, l.length - C⟩ := by
  induction l using List.reverseRecOn with
  | nil => simp [put_all, emptyQueue]
  | append_singleton l x ih =>
    have hstep : put_all (emptyQueue α C) (l ++ [x])
        = (safe_put (put_all (emptyQueue α C) l) x).2 := by
      simp [put_all, List.foldl_append]
    rw [hstep, ih]
    by_cases hlen : l.length < C
    · have h0 : l.length - C = 0 := Nat.sub_eq_zero_of_le hlen.le
      have h0' : l.length + 1 - C = 0 := by omega
      rw [safe_put_of_not_full _ x (by simp [h0]; omega)]
      simp [h0, h0']
    · push_neg at hlen
      have hlenC : (l.drop (l.length - C)).length = C := by
        simp only [List.length_drop]; omega
      have hne : l.drop (l.length - C) ≠ [] := by
        intro hnil
        rw [hnil] at hlenC
        simp at hlenC
        omega
      obtain ⟨a, t, hat⟩ := List.exists_cons_of_ne_nil hne
      have htlen : t.length + 1 = C := by
        rw [hat] at hlenC
        simpa using hlenC
      rw [hat, safe_put_of_full a t C _ x
        ⟨hC, by simp only [List.length_cons]; omega⟩ (by omega)]
      have ht : t = l.drop (l.length - C + 1) := by
        have := congrArg List.tail hat
        simpa [List.tail_drop] using this.symm
      have hd1 : (l ++ [x]).length - C = (l.length - C) + 1 := by
        simp only [List.length_append, List.length_singleton]; omega
      have hd2 : (l ++ [x]).drop ((l.length - C) + 1)
          = l.drop ((l.length - C) + 1) ++ [x] :=
        List.drop_append_of_le_length (by omega)
      simp only [hd1, hd2, ← ht]

/-- Claim C4: safe_put is total (never raises, never blocks — it is a plain
function on queue states); after N sequential puts into an initially empty
queue of capacity C with N > C, the queue holds exactly the most recent C
items in order, the oldest having been dropped first, and exactly N − C
dropped-oldest events are counted. -/
theorem safe_put_ring_buffer {α : Type} (C : Nat) (l : List α)
    (hC : 0 < C) (hN : C < l.length) :
    (put_all (emptyQueue α C) l).items = l.drop (l.length - C)
    ∧ (put_all (emptyQueue α C) l).items.length = C
    ∧ (put_all (emptyQueue α C) l).dropped = l.length - C := by
  rw [put_all_ring C hC l]
  refine ⟨rfl, ?_, rfl⟩
  simp only [List.length_drop]
  omega

/-- Witness for C4: five puts into an empty queue of capacity two leave the
two most recent items and a drop count of three. -/
theorem safe_put_ring_buffer_witness :
    (put_all (emptyQueue Nat 2) [1, 2, 3, 4, 5]).items = [4, 5]
    ∧ (put_all (emptyQueue Nat 2) [1, 2, 3, 4, 5]).dropped = 3 := by
  obtain ⟨h1, _, h3⟩ :=
    safe_put_ring_buffer 2 [1, 2, 3, 4, 5] (by decide) (by decide)
  exact ⟨by rw [h1]; decide, by rw [h3]; decide⟩

/-- Claim C10: safe_put returns a Bool and the item lands in the queue iff
the return is true; when the queue observed at the put is still full after
the drop attempt (possible only through interleaving, which env models),
safe_put returns false without raising, counts the drop a second time, and
leaves the queue contents unchanged, the item being lost.  The hypothesis
says the interleaved tasks do not touch our drop counter. -/
theorem safe_put_false_leaves_queue {α : Type} (q : QueueState α) (x : α)
    (env : QueueState α → QueueState α)
    (henv : (prePutState q env).dropped
      = (if qfull q then dropOldest q else q).dropped) :
    ((safe_put_env q x env).1 = true ↔
        (safe_put_env q x env).2.items = (prePutState q env).items ++ [x])
    ∧ ((safe_put_env q x env).1 = false →
        (safe_put_env q x env).2.items = (prePutState q env).items)
    ∧ (qfull q = true → qfull (prePutState q env) = true →
        (safe_put_env q x env).1 = false
        ∧ (safe_put_env q x env).2.dropped = q.dropped + 2) := by
  have hkey : safe_put_env q x env =
      if qfull (prePutState q env) then
        (false, { prePutState q env with
                  dropped := (prePutState q env).dropped + 1 })
      else
        (true, { prePutState q env with
                 items := (prePutState q env).items ++ [x] }) := rfl
  by_cases hfull2 : qfull (prePutState q env) = true
  · rw [hkey, if_pos hfull2]
    refine ⟨?_, fun _ => rfl, fun hfq _ => ⟨rfl, ?_⟩⟩
    · constructor
      · intro hcontra
        exact absurd hcontra (by simp)
      · intro hitems
        exfalso
        have hlen := congrArg List.length hitems
        simp at hlen
    · show (prePutState q env).dropped + 1 = q.dropped + 2
      have hne : q.items ≠ [] := by
        simp only [qfull, decide_eq_true_eq] at hfq
        intro hnil
        rw [hnil] at hfq
        simp at hfq
        omega
      have hdrop1 : (dropOldest q).dropped = q.dropped + 1 := by
        obtain ⟨a, t, hat⟩ := List.exists_cons_of_ne_nil hne
        simp [dropOldest, hat]
      rw [henv, if_pos hfq, hdrop1]
  · have hfalse : qfull (prePutState q env) = false :=
      Bool.eq_false_iff.mpr hfull2
    rw [hkey, if_neg (by simp [hfalse])]
    refine ⟨by simp, ?_, fun _ hcontra => absurd hcontra hfull2⟩
    intro hcontra
    exact absurd hcontra (by simp)

/-- Witness for C10: a full capacity-2 queue, with an interleaved producer
refilling it right after the drop, rejects the item, double-counts the drop
and leaves the interfered queue contents unchanged. -/
theorem safe_put_false_leaves_queue_witness :
    ((safe_put_env (⟨[1, 2], 2, 0⟩ : QueueState Nat) 5
        (fun s => { s with items := s.items ++ [9] })).1 = false
      ∧ (safe_put_env (⟨[1, 2], 2, 0⟩ : QueueState Nat) 5
          (fun s => { s with items := s.items ++ [9] })).2.dropped = 0 + 2) := by
  exact (safe_put_false_leaves_queue (⟨[1, 2], 2, 0⟩ : QueueState Nat) 5
    (fun s => { s with items := s.items ++ [9] }) (by decide)).2.2
    (by decide) (by decide)

/-!  Claim C5 — time-window sealing boundary. -/

/-- Claim C5: add seals nothing while the elapsed monotonic time since the
window opened is below the window size and only accumulates; on an add at or
past the boundary it emits exactly one sealed window built from the totals
accumulated before this packet, resets the bucket to start at the current
instant, and accumulates the triggering packet into the fresh window. -/
theorem time_window_seal_boundary (b : TimeWindowBucket) (nowMono nowWall : ℚ)
    (p : PacketMeta) (tf : List FlowRecord) (fs fe : Nat) :
    (nowMono - b.window_start_mono < (b.size : ℚ) →
      (b.add nowMono nowWall p tf fs fe).1 = none
      ∧ (b.add nowMono nowWall p tf fs fe).2 = b.accumulate p)
    ∧ ((b.size : ℚ) ≤ nowMono - b.window_start_mono →
      (b.add nowMono nowWall p tf fs fe).1 = some (b.seal nowWall tf fs fe)
      ∧ (b.seal nowWall tf fs fe).total_packets = b.total_packets
      ∧ (b.seal nowWall tf fs fe).total_bytes = b.total_bytes
      ∧ (b.seal nowWall tf fs fe).window_start = b.window_start_wall
      ∧ (b.seal nowWall tf fs fe).window_end = nowWall
      ∧ (b.add nowMono nowWall p tf fs fe).2
          = (b.reset nowMono nowWall).accumulate p
      ∧ ((b.add nowMono nowWall p tf fs fe).2).total_packets = 1
      ∧ ((b.add nowMono nowWall p tf fs fe).2).total_bytes = p.payload_size
      ∧ ((b.add nowMono nowWall p tf fs fe).2).window_start_mono = nowMono) := by
  constructor
  · intro h
    have hcond : ¬ ((b.size : ℚ) ≤ nowMono - b.window_start_mono) := not_le.mpr h
    constructor
    · simp [TimeWindowBucket.add, hcond]
    · simp [TimeWindowBucket.add, hcond]
  · intro h
    refine ⟨?_, rfl, rfl, rfl, rfl, ?_, ?_, ?_, ?_⟩
    · simp [TimeWindowBucket.add, h]
    · simp [TimeWindowBucket.add, h]
    · simp [TimeWindowBucket.add, h, TimeWindowBucket.accumulate,
            TimeWindowBucket.reset]
    · simp [TimeWindowBucket.add, h, TimeWindowBucket.accumulate,
            TimeWindowBucket.reset]
    · simp [TimeWindowBucket.add, h, TimeWindowBucket.accumulate,
            TimeWindowBucket.reset]

/-- Witness for C5: a 1-second bucket opened at monotonic 0 with three
packets accumulated does not seal at 0.5 s and seals exactly once at 1 s. -/
theorem time_window_seal_boundary_witness :
    ((⟨1, 0, 100, 3, 300, ["a"], ["b"], [80], [("TCP", 3)]⟩ :
        TimeWindowBucket).add (1/2) (201/2)
        ⟨0, "s", "d", 1, 2, "TCP", "SYN", 10, 64, "outbound"⟩ [] 0 0).1 = none
    ∧ ((⟨1, 0, 100, 3, 300, ["a"], ["b"], [80], [("TCP", 3)]⟩ :
        TimeWindowBucket).add 1 101
        ⟨0, "s", "d", 1, 2, "TCP", "SYN", 10, 64, "outbound"⟩ [] 0 0).1
      = some ((⟨1, 0, 100, 3, 300, ["a"], ["b"], [80], [("TCP", 3)]⟩ :
        TimeWindowBucket).seal 101 [] 0 0)
    ∧ (((⟨1, 0, 100, 3, 300, ["a"], ["b"], [80], [("TCP", 3)]⟩ :
        TimeWindowBucket).add 1 101
        ⟨0, "s", "d", 1, 2, "TCP", "SYN", 10, 64, "outbound"⟩ [] 0 0).2).total_packets = 1 := by
  refine ⟨?_, ?_, ?_⟩
  · exact ((time_window_seal_boundary _ (1/2) (201/2) _ [] 0 0).1 (by decide)).1
  · exact ((time_window_seal_boundary _ 1 101 _ [] 0 0).2 (by decide)).1
  · exact ((time_window_seal_boundary _ 1 101 _ [] 0 0).2 (by decide)).2.2.2.2.2.2.1

/-!  Claim C8 — rule exceptions never propagate. -/

/-- Claim C8: engine.analyze is total (the per-rule wrapper absorbs the
exception, substituting a non-triggered zero-confidence result), so a
raising rule yields no alert and the remaining rules still run: the
analysis with the raising rule present equals the analysis with it
removed, alerts and counters alike. -/
theorem engine_absorbs_rule_errors (thr cd : ℚ) (wl : List String)
    (rs1 rs2 : List Rule) (r : Rule) (w : AggregatedWindow)
    (st : EngineState) (now : ℚ) (ids : Nat → String) (emsg : String)
    (h : r.analyze w = .error emsg) :
    safe_analyze r w
      = { triggered := false, confidence := 0, evidence := [],
          description := "rule error: " ++ emsg }
    ∧ DetectionEngine.analyze ⟨thr, cd, wl, rs1 ++ r :: rs2⟩ st w now ids
      = DetectionEngine.analyze ⟨thr, cd, wl, rs1 ++ rs2⟩ st w now ids := by
  have hsafe : safe_analyze r w
      = { triggered := false, confidence := 0, evidence := [],
          description := "rule error: " ++ emsg } := by
    simp [safe_analyze, h]
  refine ⟨hsafe, ?_⟩
  have hstep : ∀ acc : List Alert × EngineState × Nat,
      engineStep ⟨thr, cd, wl, rs1 ++ r :: rs2⟩ w now ids acc r = acc := by
    intro acc
    simp [engineStep, hsafe]
  unfold DetectionEngine.analyze
  simp only [List.foldl_append, List.foldl_cons]
  have hsame : ∀ acc : List Alert × EngineState × Nat, ∀ ru : Rule,
      engineStep ⟨thr, cd, wl, rs1 ++ r :: rs2⟩ w now ids acc ru
        = engineStep ⟨thr, cd, wl, rs1 ++ rs2⟩ w now ids acc ru := by
    intro acc ru
    simp [engineStep]
  rw [hstep]
  have hfold : ∀ (l : List Rule) (acc : List Alert × EngineState × Nat),
      l.foldl (engineStep ⟨thr, cd, wl, rs1 ++ r :: rs2⟩ w now ids) acc
        = l.foldl (engineStep ⟨thr, cd, wl, rs1 ++ rs2⟩ w now ids) acc := by
    intro l
    induction l with
    | nil => intro acc; rfl
    | cons a l ih => intro acc; simp only [List.foldl_cons, hsame, ih]
  rw [hfold, hfold]

/-- A rule whose analyze raises unconditionally. -/
def raisingRule : Rule :=
  { name := "broken_rule", severity := .LOW,
    analyze := fun _ => .error "boom" }

/-- The zeroed engine counters. -/
def engineState0 : EngineState := ⟨[], 0, 0, 0, 0, 0⟩

/-- Witness for C8: with the raising rule inserted before port_scan, the
analysis of the concrete scan window is identical to the analysis without
it, and the wrapper substitutes the non-triggered result. -/
theorem engine_absorbs_rule_errors_witness :
    safe_analyze raisingRule scanWindow
      = { triggered := false, confidence := 0, evidence := [],
          description := "rule error: " ++ "boom" }
    ∧ DetectionEngine.analyze ⟨3/10, 30, [], [] ++ raisingRule :: [portScanRule]⟩
        engineState0 scanWindow 50 (fun _ => "uuid-0")
      = DetectionEngine.analyze ⟨3/10, 30, [], [] ++ [portScanRule]⟩
        engineState0 scanWindow 50 (fun _ => "uuid-0") :=
  engine_absorbs_rule_errors (3/10) 30 [] [] [portScanRule] raisingRule
    scanWindow engineState0 50 (fun _ => "uuid-0") "boom" rfl

/-!  Claim C1 — port-scan severity bands (code bug). -/

/-- Claim C1, settled against the code: on the 1-second window where
10.0.0.1 contacts 20 distinct ports the rule fires with confidence
20/45 = 4/9 ≈ 0.44 and the band for that confidence is MEDIUM, but the
alert the engine builds carries the rule default HIGH: PortScanRule._analyze
computes severity = self._severity_for(confidence) into a dead local and
never stores it in the evidence, so _make_alert's override never sees it.
The claim's severity clause fails on the code; this theorem evaluates the
embedding at the failing input. -/
theorem port_scan_severity_band_dead (alertId : String) (now : ℚ) :
    (portScanAnalyze scanWindow).triggered = true
    ∧ (portScanAnalyze scanWindow).confidence = 4/9
    ∧ severity_for ((portScanAnalyze scanWindow).confidence) = .MEDIUM
    ∧ evGet (portScanAnalyze scanWindow).evidence "src_ip"
        = some (.str "10.0.0.1")
    ∧ evGet (portScanAnalyze scanWindow).evidence "unique_ports_contacted"
        = some (.int 20)
    ∧ evGet (portScanAnalyze scanWindow).evidence "severity" = none
    ∧ (make_alert portScanRule (portScanAnalyze scanWindow) scanWindow
        alertId now).severity = .HIGH := by
  refine ⟨by decide, by decide, by decide, by decide, by decide, by decide, ?_⟩
  show (match evGet (portScanAnalyze scanWindow).evidence "severity" with
        | some (.sev s) => s
        | _ => portScanRule.severity) = Severity.HIGH
  decide

/-!  Claim C6 — gatekeeper check order, rate limiting and recovery. -/

/-- Claim C6: should_call evaluates its checks in the exact order cache-hit,
severity, confidence, rate limit, cooldown, returning the reason of the
first failing check; with exactly max_calls_per_minute approved-call
timestamps inside the sliding 60-second window the next otherwise-eligible
call is rejected RATE_LIMITED, and an identical call made once every
recorded timestamp is at least 60 seconds old is admitted APPROVED. -/
theorem gatekeeper_order_rate_recovery (gk : LLMGatekeeper) (st : GKState)
    (c : ExplanationCache) (a : AlertDict) (now now2 : ℚ) :
    ((should_call gk st c a now).2.1 = gkFirstFailing gk st c a now)
    ∧ ((c.get a).1 = none →
       pyUpper a.severity ∈ gk.required_severities →
       gk.min_confidence ≤ a.confidence →
       (st.call_times.filter fun t => decide (now - t < 60)).length
         = gk.max_calls_per_minute →
       (should_call gk st c a now).1 = false
       ∧ (should_call gk st c a now).2.1 = "RATE_LIMITED")
    ∧ ((c.get a).1 = none →
       pyUpper a.severity ∈ gk.required_severities →
       gk.min_confidence ≤ a.confidence →
       0 < gk.max_calls_per_minute →
       (∀ t ∈ st.call_times, 60 ≤ now2 - t) →
       gk.cooldown_seconds ≤ now2 - lookupD st.cooldowns (gkCooldownKey a) 0 →
       (should_call gk st c a now2).1 = true
       ∧ (should_call gk st c a now2).2.1 = "APPROVED") := by
  refine ⟨?_, ?_, ?_⟩
  · simp only [should_call, gkFirstFailing]
    split_ifs <;> rfl
  · intro hc hs hconf hrate
    have hrate2 : gk.max_calls_per_minute ≤
        (st.call_times.filter fun t => decide (now - t < 60)).length :=
      hrate.ge
    constructor <;>
      simp [should_call, hc, hs, not_lt.mpr hconf, hrate2]
  · intro hc hs hconf hmax hold hcd
    have hemp : (st.call_times.filter fun t => decide (now2 - t < 60)) = [] := by
      refine List.filter_eq_nil_iff.mpr ?_
      intro t ht
      simp only [decide_eq_true_eq, not_lt]
      exact hold t ht
    have hrate3 : ¬ (gk.max_calls_per_minute ≤
        (st.call_times.filter fun t => decide (now2 - t < 60)).length) := by
      rw [hemp]
      simpa using hmax.ne.symm
    constructor <;>
      simp [should_call, hc, hs, not_lt.mpr hconf, hrate3, not_lt.mpr hcd]

/-- Witness for C6: the default gatekeeper with ten call timestamps 0..9
rejects the eligible HIGH/0.82 alert at t=30 with RATE_LIMITED and admits
the identical alert at t=130. -/
theorem gatekeeper_order_rate_recovery_witness :
    ((should_call defaultGatekeeper gkStFull (emptyCache 200) alert082 30).1 = false
      ∧ (should_call defaultGatekeeper gkStFull (emptyCache 200) alert082 30).2.1
        = "RATE_LIMITED")
    ∧ ((should_call defaultGatekeeper gkStFull (emptyCache 200) alert082 130).1 = true
      ∧ (should_call defaultGatekeeper gkStFull (emptyCache 200) alert082 130).2.1
        = "APPROVED") := by
  obtain ⟨_, h2, h3⟩ := gatekeeper_order_rate_recovery defaultGatekeeper
    gkStFull (emptyCache 200) alert082 30 130
  exact ⟨h2 (by decide) (by decide) (by decide) (by decide),
         h3 (by decide) (by decide) (by decide) (by decide) (by decide) (by decide)⟩

/-!  Claim C7 — cache key confidence bucketing. -/

/-- Round-half-even lands within half a unit of its argument. -/
theorem roundHalfEven_dist (z : ℚ) : |(roundHalfEven z : ℚ) - z| ≤ 1/2 := by
  unfold roundHalfEven
  have h1 : ((⌊z⌋ : ℤ) : ℚ) ≤ z := Int.floor_le z
  have h2 : z - ⌊z⌋ < 1 := by
    have := Int.lt_floor_add_one z
    linarith
  split_ifs with ha hb hc
  · rw [abs_sub_comm, abs_of_nonneg (by linarith)]
    linarith
  · rw [abs_of_nonneg (by push_cast; linarith)]
    push_cast
    linarith
  · have hmid : z - ⌊z⌋ = 1/2 := le_antisymm (not_lt.mp hb) (not_lt.mp ha)
    rw [abs_sub_comm, abs_of_nonneg (by linarith)]
    linarith
  · have hmid : z - ⌊z⌋ = 1/2 := le_antisymm (not_lt.mp hb) (not_lt.mp ha)
    rw [abs_of_nonneg (by push_cast; linarith)]
    push_cast
    linarith

/-- Confidences more than 0.1 apart land in different tenth buckets. -/
theorem confBucket_ne_of_gap {x y : ℚ} (h : 1/10 < |x - y|) :
    confBucket x ≠ confBucket y := by
  intro heq
  unfold confBucket at heq
  have h1 := roundHalfEven_dist (10 * x)
  have h2 := roundHalfEven_dist (10 * y)
  rw [heq] at h1
  have htri : |10 * x - 10 * y| ≤ 1 := by
    have := abs_sub_abs_le_abs_sub (10 * x) (10 * y)
    calc |10 * x - 10 * y|
        = |(10 * x - (roundHalfEven (10 * y) : ℚ))
            + ((roundHalfEven (10 * y) : ℚ) - 10 * y)| := by ring_nf
      _ ≤ |10 * x - (roundHalfEven (10 * y) : ℚ)|
            + |(roundHalfEven (10 * y) : ℚ) - 10 * y| := abs_add _ _
      _ ≤ 1/2 + 1/2 := by
            rw [abs_sub_comm (10 * x)]
            exact add_le_add h1 h2
      _ = 1 := by norm_num
  have hmul : |10 * x - 10 * y| = 10 * |x - y| := by
    rw [show 10 * x - 10 * y = 10 * (x - y) by ring, abs_mul]
    norm_num
  rw [hmul] at htri
  linarith

/-- Claim C7's counterexample: the scenario-6 alert cached at confidence
0.44 and looked up at 0.46 — a change of 0.02, well below 0.1 — computes a
different key bucket (0.4 vs 0.5) and MISSES, refuting the claim that every
change below 0.1 keeps the bucket and hits. -/
theorem cache_sub_tenth_change_misses :
    alert046.confidence - alert044.confidence = 1/50
    ∧ (1/50 : ℚ) < 1/10
    ∧ confBucket alert044.confidence = 4
    ∧ confBucket alert046.confidence = 5
    ∧ (((emptyCache 200).put alert044 expl0).get alert046).1 = none := by
  decide

/-- Claim C7 amended: the cache keys on (rule, src_ip, severity,
round(confidence, 1)); after caching an alert once in an empty cache of
positive capacity, a lookup for the same alert at another confidence is a
hit iff both confidences round to the same tenth — a change below 0.1 keeps
the bucket only when no rounding boundary is crossed, and a change of more
than 0.1 always changes the bucket and misses. -/
theorem cache_bucket_hit_iff (a1 a2 : AlertDict) (e : LLMExplanation)
    (m : Nat) (hm : 0 < m) (hr : a1.rule_name = a2.rule_name)
    (hs : a1.src_ip = a2.src_ip) (hv : a1.severity = a2.severity) :
    ((((emptyCache m).put a1 e).get a2).1 ≠ none
      ↔ confBucket a1.confidence = confBucket a2.confidence)
    ∧ (1/10 < |a1.confidence - a2.confidence| →
       (((emptyCache m).put a1 e).get a2).1 = none) := by
  have hkeyiff : (cacheKeyData a1 = cacheKeyData a2)
      ↔ confBucket a1.confidence = confBucket a2.confidence := by
    simp [cacheKeyData, Prod.ext_iff, hr, hs, hv]
  have hc1 : ((emptyCache m).put a1 e).entries = [(cacheKeyData a1, e)] := by
    have hm1 : ¬ m < 1 := by omega
    simp [ExplanationCache.put, emptyCache, hm1]
  by_cases hkey : cacheKeyData a1 = cacheKeyData a2
  · have hget : ((((emptyCache m).put a1 e).get a2).1) = some e := by
      simp [ExplanationCache.get, hc1, hkey]
    rw [hget]
    refine ⟨⟨fun _ => hkeyiff.mp hkey, fun _ => by simp⟩, fun hgap => ?_⟩
    exact absurd (hkeyiff.mp hkey) (confBucket_ne_of_gap hgap)
  · have hget : ((((emptyCache m).put a1 e).get a2).1) = none := by
      simp [ExplanationCache.get, hc1, hkey]
    rw [hget]
    exact ⟨⟨fun h => absurd rfl h, fun hb => absurd (hkeyiff.mpr hb) hkey⟩,
           fun _ => rfl⟩

/-- Witness for C7 (amended): the alert cached at 0.44 and looked up at
0.41 — both bucket to 0.4. -/
theorem cache_bucket_hit_iff_witness :
    ((((emptyCache 200).put alert044 expl0).get alert041).1 ≠ none
      ↔ confBucket alert044.confidence = confBucket alert041.confidence)
    ∧ (1/10 < |alert044.confidence - alert041.confidence| →
       (((emptyCache 200).put alert044 expl0).get alert041).1 = none) :=
  cache_bucket_hit_iff alert044 alert041 expl0 200 (by decide) rfl rfl rfl

/-!  Claim C9 — top-flow snapshots share the live records. -/

/-- Claim C9, settled against the code: get_top_flows copies only the list;
the entries are the very FlowRecord objects of the tracker (heap cell
indices in this embedding), so a subsequent update on a flow present in the
snapshot mutates the record seen through the snapshot — here a one-flow
tracker whose snapshot is cell 0 reads packet_count 1 before and 2 after a
later update — contradicting the docstring's promise that the caller need
not worry about mutation. -/
theorem top_flows_share_records :
    trkA.get_top_flows 10 = [0]
    ∧ (trkA.recAt 0).packet_count = 1
    ∧ (trkA.update pktA2 2).2 = 0
    ∧ ((trkA.update pktA2 2).1.recAt 0).packet_count = 2
    ∧ (trkA.update pktA2 2).1.get_top_flows 10 = [0] := by
  decide

/-!  Claim C3 — the in-map-iff-active tracker invariant. -/

/-- Heap write preserves the heap size. -/
theorem length_heapSet (rs : List FlowRecord) (i : Nat)
    (f : FlowRecord → FlowRecord) : (heapSet rs i f).length = rs.length := by
  simp [heapSet]

/-- Heap write at another index leaves a cell unchanged. -/
theorem getD_heapSet_ne (rs : List FlowRecord) {i j : Nat}
    {f : FlowRecord → FlowRecord} (h : i ≠ j) :
    (heapSet rs i f).getD j default = rs.getD j default := by
  simp [heapSet, List.getD_eq_getElem?_getD, List.getElem?_set_ne h]

/-- Heap write at an in-range index applies the mutation. -/
theorem getD_heapSet_self (rs : List FlowRecord) {i : Nat}
    {f : FlowRecord → FlowRecord} (h : i < rs.length) :
    (heapSet rs i f).getD i default = f (rs.getD i default) := by
  simp [heapSet, List.getD_eq_getElem?_getD, List.getElem?_set_self h,
        List.getElem?_eq_getElem h]

/-- Claim C3's counterexample: on a capacity-1 tracker holding flow A, the
update that admits flow B evicts A from the map without clearing its active
flag, so the record at heap cell 0 is outside the map yet still active: the
invariant, true before the update, is false after it. -/
theorem tracker_eviction_breaks_invariant :
    trkA.invariant ∧ trkA.wf
    ∧ ¬ trkB.invariant
    ∧ mappedIds trkB = [1]
    ∧ (trkB.recAt 0).is_active = true := by
  decide

/-- Eviction never touches the heap, only the dict. -/
theorem evict_oldest_recs (u : FlowTracker) :
    u.evict_oldest.recs = u.recs := by
  by_cases h : u.flows.length - u.max_flows = 0 <;>
    simp [FlowTracker.evict_oldest, h]

/-- Eviction only removes dict entries. -/
theorem evict_oldest_flows_sublist (u : FlowTracker) :
    List.Sublist u.evict_oldest.flows u.flows := by
  by_cases h : u.flows.length - u.max_flows = 0 <;>
    simp [FlowTracker.evict_oldest, h]

/-- Folding inactive-marking writes keeps the heap size. -/
theorem foldl_inact_length (ids : List Nat) (rs : List FlowRecord) :
    (ids.foldl (fun rs i => heapSet rs i fun r => { r with is_active := false })
      rs).length = rs.length := by
  induction ids generalizing rs with
  | nil => rfl
  | cons a tl ih => rw [List.foldl_cons, ih, length_heapSet]

/-- Cells outside the marked set are untouched. -/
theorem foldl_inact_getD_notmem (ids : List Nat) (rs : List FlowRecord)
    (j : Nat) (h : j ∉ ids) :
    (ids.foldl (fun rs i => heapSet rs i fun r => { r with is_active := false })
      rs).getD j default = rs.getD j default := by
  induction ids generalizing rs with
  | nil => rfl
  | cons a tl ih =>
      rw [List.mem_cons] at h
      push_neg at h
      rw [List.foldl_cons, ih _ h.2, getD_heapSet_ne _ (Ne.symm h.1)]

/-- Once a cell is inactive, further inactive-marking keeps it inactive. -/
theorem foldl_inact_keeps_false (ids : List Nat) (rs : List FlowRecord)
    (j : Nat) (hfalse : (rs.getD j default).is_active = false) :
    ((ids.foldl (fun rs i => heapSet rs i fun r => { r with is_active := false })
      rs).getD j default).is_active = false := by
  induction ids generalizing rs with
  | nil => exact hfalse
  | cons a tl ih =>
      rw [List.foldl_cons]
      apply ih
      by_cases hij : a = j
      · subst hij
        by_cases hlen : a < rs.length
        · rw [getD_heapSet_self _ hlen]
        · rw [heapSet, List.set_eq_of_length_le (le_of_not_lt hlen)]
          exact hfalse
      · rw [getD_heapSet_ne _ hij]
        exact hfalse

/-- Marking a present in-range cell makes it inactive. -/
theorem foldl_inact_sets_false (ids : List Nat) (rs : List FlowRecord)
    (j : Nat) (hmem : j ∈ ids) (hlen : j < rs.length) :
    ((ids.foldl (fun rs i => heapSet rs i fun r => { r with is_active := false })
      rs).getD j default).is_active = false := by
  induction ids generalizing rs with
  | nil => cases hmem
  | cons a tl ih =>
      rw [List.foldl_cons]
      by_cases hmem2 : j ∈ tl
      · exact ih _ hmem2 (by rw [length_heapSet]; exact hlen)
      · have hja : j = a := by
          rcases List.mem_cons.mp hmem with h | h
          · exact h
          · exact absurd h hmem2
        subst hja
        apply foldl_inact_keeps_false
        rw [getD_heapSet_self _ hlen]

/-- expire_flows preserves the invariant and well-formedness, and every
removed record is marked inactive and unlinked from the map. -/
theorem expire_flows_spec (t : FlowTracker) (tnow ttl : ℚ)
    (hinv : t.invariant) (hwf : t.wf) :
    ((t.expire_flows tnow ttl).1.invariant ∧ (t.expire_flows tnow ttl).1.wf)
    ∧ (∀ i ∈ (t.expire_flows tnow ttl).2,
        ((t.expire_flows tnow ttl).1.recAt i).is_active = false
        ∧ i ∉ mappedIds (t.expire_flows tnow ttl).1) := by
  have h1 : (t.expire_flows tnow ttl).1.flows
      = t.flows.filter (fun kv =>
          !decide ((t.recAt kv.2).last_seen < tnow - ttl)) := rfl
  have h2 : (t.expire_flows tnow ttl).2
      = (t.flows.filter (fun kv =>
          decide ((t.recAt kv.2).last_seen < tnow - ttl))).map (·.2) := rfl
  have h3 : (t.expire_flows tnow ttl).1.recs
      = ((t.flows.filter (fun kv =>
            decide ((t.recAt kv.2).last_seen < tnow - ttl))).map (·.2)).foldl
          (fun rs i => heapSet rs i fun r => { r with is_active := false })
          t.recs := rfl
  have hmax : (t.expire_flows tnow ttl).1.recs.length = t.recs.length := by
    rw [h3, foldl_inact_length]
  have hinj := List.inj_on_of_nodup_map hwf.1
  -- characterise membership in the new map and in the removed ids
  have hmem' : ∀ i, i ∈ mappedIds (t.expire_flows tnow ttl).1 ↔
      ∃ kv ∈ t.flows, kv.2 = i
        ∧ decide ((t.recAt kv.2).last_seen < tnow - ttl) = false := by
    intro i
    unfold mappedIds
    rw [h1]
    simp only [List.mem_map, List.mem_filter, Bool.not_eq_true']
    constructor
    · rintro ⟨kv, ⟨hkv, hp⟩, hi⟩
      exact ⟨kv, hkv, hi, hp⟩
    · rintro ⟨kv, hkv, hi, hp⟩
      exact ⟨kv, ⟨hkv, hp⟩, hi⟩
  have hmemEx : ∀ i, i ∈ (t.expire_flows tnow ttl).2 ↔
      ∃ kv ∈ t.flows, kv.2 = i
        ∧ decide ((t.recAt kv.2).last_seen < tnow - ttl) = true := by
    intro i
    rw [h2]
    simp only [List.mem_map, List.mem_filter]
    constructor
    · rintro ⟨kv, ⟨hkv, hp⟩, hi⟩
      exact ⟨kv, hkv, hi, hp⟩
    · rintro ⟨kv, hkv, hi, hp⟩
      exact ⟨kv, ⟨hkv, hp⟩, hi⟩
  have hnotboth : ∀ i, i ∈ mappedIds (t.expire_flows tnow ttl).1 →
      i ∈ (t.expire_flows tnow ttl).2 → False := by
    intro i hm hx
    obtain ⟨kv, hkv, hi, hp⟩ := (hmem' i).mp hm
    obtain ⟨kv', hkv', hi', hp'⟩ := (hmemEx i).mp hx
    have hkk : kv = kv' := hinj hkv hkv' (by rw [hi, hi'])
    rw [hkk] at hp
    rw [hp] at hp'
    cases hp'
  have hexsub : ∀ i, i ∈ (t.expire_flows tnow ttl).2 → i ∈ mappedIds t := by
    intro i hx
    obtain ⟨kv, hkv, hi, _⟩ := (hmemEx i).mp hx
    exact hi ▸ List.mem_map_of_mem (·.2) hkv
  have hmapsub : ∀ i, i ∈ mappedIds (t.expire_flows tnow ttl).1 →
      i ∈ mappedIds t := by
    intro i hm
    obtain ⟨kv, hkv, hi, _⟩ := (hmem' i).mp hm
    exact hi ▸ List.mem_map_of_mem (·.2) hkv
  refine ⟨⟨⟨?_, ?_⟩, ?_, ?_⟩, ?_⟩
  · -- mapped cells are live and active
    intro i hm
    have hmt := hmapsub i hm
    obtain ⟨hlen, hact⟩ := hinv.1 i hmt
    refine ⟨by rw [hmax]; exact hlen, ?_⟩
    have hnx : i ∉ (t.expire_flows tnow ttl).2 := fun hx => hnotboth i hm hx
    rw [h2] at hnx
    unfold FlowTracker.recAt
    rw [h3, foldl_inact_getD_notmem _ _ _ hnx]
    exact hact
  · -- stray cells are inactive
    intro i hlen hm
    rw [hmax] at hlen
    unfold FlowTracker.recAt
    rw [h3]
    by_cases hmt : i ∈ mappedIds t
    · obtain ⟨kv, hkv, hi⟩ := List.mem_map.mp hmt
      by_cases hp : decide ((t.recAt kv.2).last_seen < tnow - ttl) = true
      · have hx : i ∈ (t.expire_flows tnow ttl).2 :=
          (hmemEx i).mpr ⟨kv, hkv, hi, hp⟩
        rw [h2] at hx
        exact foldl_inact_sets_false _ _ _ hx hlen
      · exact absurd ((hmem' i).mpr
          ⟨kv, hkv, hi, Bool.eq_false_iff.mpr hp⟩) hm
    · have hnx : i ∉ (t.expire_flows tnow ttl).2 :=
        fun hx => hmt (hexsub i hx)
      rw [h2] at hnx
      rw [foldl_inact_getD_notmem _ _ _ hnx]
      exact hinv.2 i hlen hmt
  · -- the new map is still duplicate-free
    show ((t.expire_flows tnow ttl).1.flows.map (·.2)).Nodup
    rw [h1]
    exact (List.Sublist.map _ (List.filter_sublist _)).nodup hwf.1
  · -- the new map still points into the heap
    intro i hm
    rw [hmax]
    exact hwf.2 i (hmapsub i hm)
  · -- removed records: inactive and unlinked
    intro i hx
    refine ⟨?_, fun hm => hnotboth i hm hx⟩
    have hlen : i < t.recs.length := hwf.2 i (hexsub i hx)
    unfold FlowTracker.recAt
    rw [h3]
    have hx2 := hx
    rw [h2] at hx2
    exact foldl_inact_sets_false _ _ _ hx2 hlen

/-- The statistics mutation never touches the active flag. -/
theorem recordStatsUpdate_is_active (p : PacketMeta) (r : FlowRecord) :
    (recordStatsUpdate p r).is_active = r.is_active := rfl

/-- A successful dict lookup returns a mapped heap index. -/
theorem lookupFlow_some_mem {fl : List (FlowKey × Nat)} {k : FlowKey}
    {i : Nat} (h : lookupFlow fl k = some i) : i ∈ fl.map (·.2) := by
  unfold lookupFlow at h
  cases hf : fl.find? (fun kv => decide (kv.1 = k)) with
  | none => rw [hf] at h; cases h
  | some kv =>
      rw [hf] at h
      simp at h
      exact h ▸ List.mem_map_of_mem (·.2) (List.mem_of_find?_eq_some hf)

/-- update on a present key: the dict is unchanged and the found cell is
reactivated then statistics-updated in place. -/
theorem update_found_eq (t : FlowTracker) (p : PacketMeta) (now : ℚ)
    {i0 : Nat} (hl : lookupFlow t.flows (packetFlowKey p) = some i0) :
    t.update p now
      = ({ t with recs := (heapSet
            (heapSet t.recs i0 (fun r => { r with is_active := true }))
            i0 (recordStatsUpdate p)) }, i0) := by
  simp [FlowTracker.update, hl]

/-- update on a new key: the heap gains the fresh record which is then
statistics-updated in place; the dict is the inserted dict, possibly
filtered by eviction, and exactly the inserted dict when the tracker was
below its cap. -/
theorem update_new_parts (t : FlowTracker) (p : PacketMeta) (now : ℚ)
    (hl : lookupFlow t.flows (packetFlowKey p) = none) :
    (t.update p now).1.recs
      = heapSet (t.updateInsert p now).recs t.recs.length (recordStatsUpdate p)
    ∧ List.Sublist (t.update p now).1.flows (t.updateInsert p now).flows
    ∧ (t.flows.length < t.max_flows →
        (t.update p now).1.flows = (t.updateInsert p now).flows) := by
  by_cases hev : (t.updateInsert p now).max_flows
      < (t.updateInsert p now).flows.length
  · refine ⟨?_, ?_, fun hcap => ?_⟩
    · simp [FlowTracker.update, hl, hev, evict_oldest_recs]
    · have hfe : (t.update p now).1.flows
          = (t.updateInsert p now).evict_oldest.flows := by
        simp [FlowTracker.update, hl, hev]
      rw [hfe]
      exact evict_oldest_flows_sublist _
    · exfalso
      have h1 : (t.updateInsert p now).max_flows = t.max_flows := rfl
      have h2 : (t.updateInsert p now).flows.length = t.flows.length + 1 := by
        simp [FlowTracker.updateInsert]
      rw [h1, h2] at hev
      omega
  · refine ⟨?_, ?_, fun _ => ?_⟩
    · simp [FlowTracker.update, hl, hev]
    · have hfe : (t.update p now).1.flows = (t.updateInsert p now).flows := by
        simp [FlowTracker.update, hl, hev]
      rw [hfe]
    · simp [FlowTracker.update, hl, hev]

/-- update always preserves the forward half of the invariant: every
mapped index stays live and active, whether or not an eviction fires. -/
theorem update_mapped_active (t : FlowTracker) (p : PacketMeta) (now : ℚ)
    (hma : ∀ i ∈ mappedIds t,
      i < t.recs.length ∧ (t.recAt i).is_active = true) :
    ∀ i ∈ mappedIds (t.update p now).1,
      i < (t.update p now).1.recs.length
      ∧ ((t.update p now).1.recAt i).is_active = true := by
  intro i hi
  cases hl : lookupFlow t.flows (packetFlowKey p) with
  | some i0 =>
      rw [update_found_eq t p now hl] at hi ⊢
      have hi' : i ∈ mappedIds t := by simpa [mappedIds] using hi
      have hi0 : i0 ∈ mappedIds t := lookupFlow_some_mem hl
      have hlen := (hma i hi').1
      have hlen0 := (hma i0 hi0).1
      constructor
      · simpa [length_heapSet] using hlen
      · unfold FlowTracker.recAt
        show ((heapSet (heapSet t.recs i0 fun r => { r with is_active := true })
          i0 (recordStatsUpdate p)).getD i default).is_active = true
        by_cases hii : i0 = i
        · subst hii
          rw [getD_heapSet_self _ (by rw [length_heapSet]; exact hlen0),
              getD_heapSet_self _ hlen0]
          rfl
        · rw [getD_heapSet_ne _ hii, getD_heapSet_ne _ hii]
          exact (hma i hi').2
  | none =>
      obtain ⟨hrecs, hsub, _⟩ := update_new_parts t p now hl
      have hlen1 : (t.update p now).1.recs.length = t.recs.length + 1 := by
        rw [hrecs, length_heapSet]
        simp [FlowTracker.updateInsert]
      have hi' : i ∈ mappedIds t ++ [t.recs.length] := by
        have hmm : i ∈ mappedIds (t.updateInsert p now) :=
          (hsub.map (·.2)).subset hi
        simpa [mappedIds, FlowTracker.updateInsert] using hmm
      rcases List.mem_append.mp hi' with him | hieq
      · have hlt := (hma i him).1
        refine ⟨by omega, ?_⟩
        unfold FlowTracker.recAt
        rw [hrecs, getD_heapSet_ne _ (by omega : t.recs.length ≠ i)]
        have hgd : (t.updateInsert p now).recs.getD i default
            = t.recs.getD i default := by
          simp [FlowTracker.updateInsert, List.getD_eq_getElem?_getD,
                List.getElem?_append, hlt]
        rw [hgd]
        exact (hma i him).2
      · simp only [List.mem_singleton] at hieq
        subst hieq
        refine ⟨by omega, ?_⟩
        unfold FlowTracker.recAt
        rw [hrecs,
            getD_heapSet_self _ (by simp [FlowTracker.updateInsert]),
            recordStatsUpdate_is_active]
        simp [FlowTracker.updateInsert, List.getD_eq_getElem?_getD,
              List.getElem?_concat_length]

/-- update below the cap (no eviction possible) preserves the full
invariant and well-formedness. -/
theorem update_no_evict_spec (t : FlowTracker) (p : PacketMeta) (now : ℚ)
    (hinv : t.invariant) (hwf : t.wf)
    (hcap : t.flows.length < t.max_flows) :
    (t.update p now).1.invariant ∧ (t.update p now).1.wf := by
  cases hl : lookupFlow t.flows (packetFlowKey p) with
  | some i0 =>
      rw [update_found_eq t p now hl]
      have hi0 : i0 ∈ mappedIds t := lookupFlow_some_mem hl
      have hlen0 := (hinv.1 i0 hi0).1
      refine ⟨⟨?_, ?_⟩, ?_, ?_⟩
      · intro i hi
        have hi' : i ∈ mappedIds t := by simpa [mappedIds] using hi
        refine ⟨by simpa [length_heapSet] using (hinv.1 i hi').1, ?_⟩
        unfold FlowTracker.recAt
        show ((heapSet (heapSet t.recs i0 fun r => { r with is_active := true })
          i0 (recordStatsUpdate p)).getD i default).is_active = true
        by_cases hii : i0 = i
        · subst hii
          rw [getD_heapSet_self _ (by rw [length_heapSet]; exact hlen0),
              getD_heapSet_self _ hlen0]
          rfl
        · rw [getD_heapSet_ne _ hii, getD_heapSet_ne _ hii]
          exact (hinv.1 i hi').2
      · intro i hilen hi
        have hilen' : i < t.recs.length := by
          simpa [length_heapSet] using hilen
        have hi' : i ∉ mappedIds t := by simpa [mappedIds] using hi
        have hii : i0 ≠ i := fun he => hi' (he ▸ hi0)
        unfold FlowTracker.recAt
        show ((heapSet (heapSet t.recs i0 fun r => { r with is_active := true })
          i0 (recordStatsUpdate p)).getD i default).is_active = false
        rw [getD_heapSet_ne _ hii, getD_heapSet_ne _ hii]
        exact hinv.2 i hilen' hi'
      · exact hwf.1
      · intro i hi
        have hi' : i ∈ mappedIds t := by simpa [mappedIds] using hi
        simpa [length_heapSet] using hwf.2 i hi'
  | none =>
      obtain ⟨hrecs, _, hflowseq⟩ := update_new_parts t p now hl
      have hfl : (t.update p now).1.flows = (t.updateInsert p now).flows :=
        hflowseq hcap
      have hmap : mappedIds (t.update p now).1
          = mappedIds t ++ [t.recs.length] := by
        unfold mappedIds
        rw [hfl]
        simp [FlowTracker.updateInsert, mappedIds]
      have hlen1 : (t.update p now).1.recs.length = t.recs.length + 1 := by
        rw [hrecs, length_heapSet]
        simp [FlowTracker.updateInsert]
      refine ⟨⟨?_, ?_⟩, ?_, ?_⟩
      · intro i hi
        rw [hmap] at hi
        rcases List.mem_append.mp hi with him | hieq
        · have hlt := (hinv.1 i him).1
          refine ⟨by omega, ?_⟩
          unfold FlowTracker.recAt
          rw [hrecs, getD_heapSet_ne _ (by omega : t.recs.length ≠ i)]
          have hgd : (t.updateInsert p now).recs.getD i default
              = t.recs.getD i default := by
            simp [FlowTracker.updateInsert, List.getD_eq_getElem?_getD,
                  List.getElem?_append, hlt]
          rw [hgd]
          exact (hinv.1 i him).2
        · simp only [List.mem_singleton] at hieq
          subst hieq
          refine ⟨by omega, ?_⟩
          unfold FlowTracker.recAt
          rw [hrecs,
              getD_heapSet_self _ (by simp [FlowTracker.updateInsert]),
              recordStatsUpdate_is_active]
          simp [FlowTracker.updateInsert, List.getD_eq_getElem?_getD,
                List.getElem?_concat_length]
      · intro i hilen hi
        rw [hmap] at hi
        rw [hlen1] at hilen
        have hne : i ≠ t.recs.length := fun he =>
          hi (by rw [he]; exact List.mem_append_right _ (List.mem_singleton_self _))
        have hlt : i < t.recs.length := by omega
        have hnm : i ∉ mappedIds t := fun hm => hi (List.mem_append_left _ hm)
        unfold FlowTracker.recAt
        rw [hrecs, getD_heapSet_ne _ (Ne.symm hne)]
        have hgd : (t.updateInsert p now).recs.getD i default
            = t.recs.getD i default := by
          simp [FlowTracker.updateInsert, List.getD_eq_getElem?_getD,
                List.getElem?_append, hlt]
        rw [hgd]
        exact hinv.2 i hlt hnm
      · show (mappedIds (t.update p now).1).Nodup
        rw [hmap, List.nodup_append]
        refine ⟨hwf.1, List.nodup_singleton _, ?_⟩
        intro a ha hb
        simp only [List.mem_singleton] at hb
        subst hb
        have hcontra := hwf.2 _ ha
        omega
      · intro i hi
        rw [hmap] at hi
        rw [hlen1]
        rcases List.mem_append.mp hi with him | hieq
        · have := hwf.2 i him
          omega
        · simp only [List.mem_singleton] at hieq
          omega

/-- Claim C3 amended: the tracker state keeps every mapped record live and
active through update and expire; expire removes each expired record from
the map and marks it inactive, preserving the full in-map-iff-active
invariant; update preserves the full invariant whenever it cannot evict
(tracker below its capacity cap).  Capacity eviction, however, only unlinks
map entries and leaves the evicted records' active flags set, so after an
eviction only the forward direction (in the map → active) survives — the
counterexample shows the reverse direction breaking. -/
theorem tracker_invariant_amended (t : FlowTracker) (p : PacketMeta)
    (now tnow ttl : ℚ) (hinv : t.invariant) (hwf : t.wf) :
    ((t.expire_flows tnow ttl).1.invariant ∧ (t.expire_flows tnow ttl).1.wf)
    ∧ (∀ i ∈ (t.expire_flows tnow ttl).2,
        ((t.expire_flows tnow ttl).1.recAt i).is_active = false
        ∧ i ∉ mappedIds (t.expire_flows tnow ttl).1)
    ∧ (∀ i ∈ mappedIds (t.update p now).1,
        i < (t.update p now).1.recs.length
        ∧ ((t.update p now).1.recAt i).is_active = true)
    ∧ (t.flows.length < t.max_flows →
        (t.update p now).1.invariant ∧ (t.update p now).1.wf) := by
  obtain ⟨hA, hB⟩ := expire_flows_spec t tnow ttl hinv hwf
  exact ⟨hA, hB, update_mapped_active t p now hinv.1,
         fun hcap => update_no_evict_spec t p now hinv hwf hcap⟩

/-- Witness for C3 (amended): the capacity-100 tracker holding flow A,
expired at t=100 with TTL 60 and updated with the flow-B packet. -/
theorem tracker_invariant_amended_witness :
    (((trkW.expire_flows 100 60).1.invariant
        ∧ (trkW.expire_flows 100 60).1.wf)
      ∧ (∀ i ∈ (trkW.expire_flows 100 60).2,
          ((trkW.expire_flows 100 60).1.recAt i).is_active = false
          ∧ i ∉ mappedIds (trkW.expire_flows 100 60).1)
      ∧ (∀ i ∈ mappedIds (trkW.update pktB 2).1,
          i < (trkW.update pktB 2).1.recs.length
          ∧ ((trkW.update pktB 2).1.recAt i).is_active = true)
      ∧ (trkW.flows.length < trkW.max_flows →
          (trkW.update pktB 2).1.invariant ∧ (trkW.update pktB 2).1.wf)) :=
  tracker_invariant_amended trkW pktB 2 100 60 (by decide) (by decide)

end Netwatch
